import Mathlib

/-!
Shallow embedding of the pipefy-mcp-server core logic (services and tool
layer) together with proofs of its request/response-shaping properties.

Conventions used throughout:

* Python values are modelled by the inductive type `Py`; dicts are ordered
  association lists (Python dicts preserve insertion order and have unique
  keys), floats are modelled as rationals (`Py.rat`).
* Functions that perform network calls are modelled as pure functions that
  return the GraphQL call(s) they would issue (their "trace") together with
  the value they would return; the upstream responses are passed in as
  arguments.
* Python code that would raise an uncaught exception on ill-shaped input is
  modelled with `Option` (`none` = exception); code that raises a
  `ValueError` caught by callers is modelled with `Except String`.
-/

namespace PipefyMCP

/-! ### Python-like values -/

/-- Model of a Python value as it appears in the JSON-ish request/response
payloads of the server: `None`, booleans, integers, floats (as rationals),
strings, lists and (insertion-ordered) dicts with string keys. -/
inductive Py where
  | pyNone : Py
  | bool (b : Bool) : Py
  | int (n : Int) : Py
  | rat (q : ℚ) : Py
  | str (s : String) : Py
  | list (xs : List Py) : Py
  | dict (kvs : List (String × Py)) : Py
  deriving Inhabited

/-- Python truthiness (`bool(v)`): `None`, `False`, `0`, `0.0`, `""`, `[]`
and `{}` are falsy, everything else is truthy. -/
def Py.truthy : Py → Bool
  | .pyNone => false
  | .bool b => b
  | .int n => n != 0
  | .rat q => q != 0
  | .str s => !s.isEmpty
  | .list xs => !xs.isEmpty
  | .dict kvs => !kvs.isEmpty

/-- Python `d.get(k)` on a dict modelled as an association list: the value of
the first (and, for a genuine dict, only) binding of `k`, if any. -/
def dictFind (kvs : List (String × Py)) (k : String) : Option Py :=
  (kvs.find? (fun p => p.1 == k)).map (·.2)

/-- Python `d.get(k, default)`. -/
def dictGetD (kvs : List (String × Py)) (k : String) (d : Py) : Py :=
  (dictFind kvs k).getD d

/-- Python `k in d`. -/
def dictHasKey (kvs : List (String × Py)) (k : String) : Bool :=
  (dictFind kvs k).isSome

/-- Python `d[k] = v` (also the effect of `{**d, k: v}`): an existing binding
keeps its position and is overwritten, a new key is appended at the end. -/
def dictSet (kvs : List (String × Py)) (k : String) (v : Py) : List (String × Py) :=
  if dictHasKey kvs k then kvs.map (fun p => if p.1 == k then (k, v) else p)
  else kvs ++ [(k, v)]

mutual
/-- Python `repr` of a value (string escaping and float formatting are
simplified; no theorem depends on the rendering of containers or floats). -/
def pyRepr : Py → String
  | .pyNone => "None"
  | .bool true => "True"
  | .bool false => "False"
  | .int n => toString n
  | .rat q => toString q
  | .str s => "\x27" ++ s ++ "\x27"
  | .list xs => "[" ++ pyReprList xs ++ "]"
  | .dict kvs => "\x7b" ++ pyReprKvs kvs ++ "\x7d"

/-- Comma-separated reprs of the elements of a Python list. -/
def pyReprList : List Py → String
  | [] => ""
  | [x] => pyRepr x
  | x :: y :: xs => pyRepr x ++ ", " ++ pyReprList (y :: xs)

/-- Comma-separated `key: value` reprs of the entries of a Python dict. -/
def pyReprKvs : List (String × Py) → String
  | [] => ""
  | [(k, v)] => "\x27" ++ k ++ "\x27: " ++ pyRepr v
  | (k, v) :: p :: kvs => "\x27" ++ k ++ "\x27: " ++ pyRepr v ++ ", " ++ pyReprKvs (p :: kvs)
end

/-- Python `str(v)`: the identity on strings, `repr` otherwise. -/
def pyStr : Py → String
  | .str s => s
  | v => pyRepr v

/-- Python `s.upper()` (ASCII case mapping). -/
def pyUpper (s : String) : String := ⟨s.data.map Char.toUpper⟩

/-- Python `s.lower()` (ASCII case mapping). -/
def pyLower (s : String) : String := ⟨s.data.map Char.toLower⟩

/-! ### services/pipefy/utils/formatters.py -/

/-- One step of the list branch of `convert_fields_to_array`: a dict entry
lacking the `generated_by_ai` key gets it appended with value `True`
(`{**item, "generated_by_ai": True}`); dict entries that already carry the
key, and non-dict entries, pass through unchanged. -/
def normalizeFieldItem (item : Py) : Py :=
  match item with
  | .dict kvs =>
      if dictHasKey kvs "generated_by_ai" then .dict kvs
      else .dict (kvs ++ [("generated_by_ai", .bool true)])
  | other => other

/-- Embedding of `convert_fields_to_array` (formatters.py): a dict becomes a
list of `field_id`/`field_value`/`generated_by_ai` records in iteration
order; a list is normalized entry by entry; any other value is wrapped in a
singleton list when truthy and dropped to `[]` when falsy. -/
def convert_fields_to_array (fields : Py) : List Py :=
  match fields with
  | .dict kvs =>
      kvs.map (fun p =>
        .dict [("field_id", .str p.1), ("field_value", p.2), ("generated_by_ai", .bool true)])
  | .list items => items.map normalizeFieldItem
  | other => if other.truthy then [other] else []

/-- Loop of `convert_values_to_camel_case`, carrying the running index used
in the `ValueError` messages. -/
def convertValuesGo (i : Nat) : List (List (String × Py)) → Except String (List Py)
  | [] => .ok []
  | v :: rest =>
      if !dictHasKey v "field_id" then
        .error ("Value at index " ++ toString i ++ " is missing required \x27field_id\x27 key")
      else if !dictHasKey v "value" then
        .error ("Value at index " ++ toString i ++ " is missing required \x27value\x27 key")
      else
        match convertValuesGo (i + 1) rest with
        | .error e => .error e
        | .ok tail =>
            .ok (.dict [("fieldId", dictGetD v "field_id" .pyNone),
                        ("value", dictGetD v "value" .pyNone),
                        ("operation", .str (pyUpper (pyStr (dictGetD v "operation" (.str "REPLACE"))))),
                        ("generatedByAi", .bool true)] :: tail)

/-- Embedding of `convert_values_to_camel_case` (formatters.py): each entry
`{field_id, value, operation?}` becomes
`{fieldId, value, operation: str(operation).upper() or "REPLACE",
generatedByAi: True}`; a `ValueError` (modelled as `.error`) is raised at the
first entry missing `field_id` or `value`. -/
def convert_values_to_camel_case (values : List (List (String × Py))) : Except String (List Py) :=
  convertValuesGo 0 values

/-! ### services/pipefy/card_service.py -/

/-- GraphQL documents used by `CardService.update_card`. -/
inductive Mutation where
  | updateCard : Mutation
  | updateFieldsValues : Mutation
  deriving DecidableEq, Repr

/-- One GraphQL request issued through the adapter: the document plus the
`variables` payload. -/
structure GqlCall where
  doc : Mutation
  vars : Py

/-- Python truthiness of the `field_updates: list[dict] | None` parameter:
truthy exactly when it is a non-empty list. -/
def fieldUpdatesTruthy : Option (List (List (String × Py))) → Bool
  | none => false
  | some fu => !fu.isEmpty

/-- Input dict built by `CardService._execute_update_card`: `id` plus each of
`title`, `assignee_ids`, `label_ids`, `due_date` that is not `None`, in that
order. -/
def updateCardInput (card_id : Int) (title : Option String)
    (assignee_ids : Option (List Int)) (label_ids : Option (List Int))
    (due_date : Option String) : List (String × Py) :=
  [("id", Py.int card_id)]
    ++ (match title with | some t => [("title", Py.str t)] | none => [])
    ++ (match assignee_ids with
        | some l => [("assignee_ids", Py.list (l.map Py.int))] | none => [])
    ++ (match label_ids with
        | some l => [("label_ids", Py.list (l.map Py.int))] | none => [])
    ++ (match due_date with | some d => [("due_date", Py.str d)] | none => [])

namespace CardService

/-- Embedding of `CardService.update_card` together with its two private
helpers `_execute_update_fields_values` and `_execute_update_card`. Instead
of performing network IO it returns the list of GraphQL calls the method
issues (a `ValueError` from the formatter propagates as `.error`). -/
def update_card (card_id : Int) (title : Option String)
    (assignee_ids : Option (List Int)) (label_ids : Option (List Int))
    (due_date : Option String)
    (field_updates : Option (List (List (String × Py)))) :
    Except String (List GqlCall) :=
  if fieldUpdatesTruthy field_updates then
    match convert_values_to_camel_case (field_updates.getD []) with
    | .error e => .error e
    | .ok formatted_values =>
        .ok [⟨.updateFieldsValues,
              .dict [("input", .dict [("nodeId", .int card_id),
                                      ("values", .list formatted_values)])]⟩]
  else
    .ok [⟨.updateCard,
          .dict [("input", .dict (updateCardInput card_id title assignee_ids
                                    label_ids due_date))]⟩]

end CardService

/-! ### services/pipefy/pipe_service.py -/

/-- Python `round(x, 1)` (banker's rounding to one decimal place), modelled
over the rationals. -/
def roundHalfEven (q : ℚ) : ℤ :=
  let f := ⌊q⌋
  let r := q - f
  if r < 1 / 2 then f
  else if 1 / 2 < r then f + 1
  else if f % 2 = 0 then f else f + 1

/-- Rounding to one decimal place, used for `match_score`. -/
def round1 (q : ℚ) : ℚ := (roundHalfEven (10 * q) : ℚ) / 10

/-- Truthiness of `field.get("required")` for one start-form field; `none`
models the `AttributeError` Python raises when the field is not a dict. -/
def fieldRequired (field : Py) : Option Bool :=
  match field with
  | .dict kvs => some (dictGetD kvs "required" .pyNone).truthy
  | _ => none

/-- The list comprehension `[field for field in fields if field.get("required")]`
tags each field with its `required` truthiness left to right; `none` models
the exception raised on a non-dict entry. -/
def tagRequired : List Py → Option (List (Py × Bool))
  | [] => some []
  | f :: rest =>
      match fieldRequired f with
      | none => none
      | some b =>
          match tagRequired rest with
          | none => none
          | some tail => some ((f, b) :: tail)

namespace PipeService

/-- Embedding of the response shaping in `PipeService.get_start_form_fields`:
given the raw GraphQL `result` dict and the `required_only` flag, produce the
returned payload (`none` models an uncaught Python exception on an
ill-shaped response). -/
def get_start_form_fields (result : List (String × Py)) (required_only : Bool) :
    Option Py :=
  match dictGetD result "pipe" (.dict []) with
  | .dict pipeKvs =>
      let fieldsVal := dictGetD pipeKvs "start_form_fields" (.list [])
      if !fieldsVal.truthy then
        some (.dict [("message", .str "This pipe has no start form fields configured."),
                     ("start_form_fields", .list [])])
      else if required_only then
        match fieldsVal with
        | .list fields =>
            match tagRequired fields with
            | some tagged =>
                let kept := (tagged.filter (·.2)).map (·.1)
                if kept.isEmpty then
                  some (.dict [("message", .str "This pipe has no required fields in the start form."),
                               ("start_form_fields", .list [])])
                else some (.dict [("start_form_fields", .list kept)])
            | none => none
        | _ => none
      else
        some (.dict [("start_form_fields", fieldsVal)])
  | _ => none

/-- Score of one pipe in `search_pipes`: `fuzz.WRatio(pipe_name, name,
score_cutoff=threshold)` returns the raw score when it reaches the cutoff
and `0` otherwise. The third-party scorer itself is a parameter `wratio`. -/
def pipeScore (wratio : String → String → ℚ) (pipe_name name : String)
    (threshold : ℚ) : ℚ :=
  let raw := wratio pipe_name name
  if threshold ≤ raw then raw else 0

/-- Collect the `(score, pipe)` pairs of the pipes of one organization that
survive the cutoff (`if score:` keeps the non-zero scores), in original
order; `none` models a Python `TypeError`/`AttributeError` on an ill-shaped
pipe entry. -/
def matchingPipes (wratio : String → String → ℚ) (pipe_name : String)
    (threshold : ℚ) : List Py → Option (List (ℚ × List (String × Py)))
  | [] => some []
  | pipe :: rest =>
      match pipe with
      | .dict kvs =>
          match dictGetD kvs "name" (.str "") with
          | .str name =>
              match matchingPipes wratio pipe_name threshold rest with
              | none => none
              | some tail =>
                  let score := pipeScore wratio pipe_name name threshold
                  if score ≠ 0 then some ((score, kvs) :: tail) else some tail
          | _ => none
      | _ => none

/-- Processing of one organization in `search_pipes`: sort the surviving
pipes by score (descending, stable) and decorate each with its rounded
`match_score`; organizations with no surviving pipe are dropped (`none` in
the second component of the result means "ill-shaped", the outer `Option`). -/
def filterOrg (wratio : String → String → ℚ) (pipe_name : String)
    (threshold : ℚ) (org : Py) : Option (Option Py) :=
  match org with
  | .dict orgKvs =>
      match dictGetD orgKvs "pipes" (.list []) with
      | .list pipes =>
          match matchingPipes wratio pipe_name threshold pipes with
          | none => none
          | some pairs =>
              if pairs.isEmpty then some none
              else
                let sorted := pairs.mergeSort (fun a b => decide (b.1 ≤ a.1))
                some (some (.dict
                  [("id", dictGetD orgKvs "id" .pyNone),
                   ("name", dictGetD orgKvs "name" .pyNone),
                   ("pipes", .list (sorted.map (fun p =>
                      .dict (dictSet p.2 "match_score" (.rat (round1 p.1))))))]))
      | _ => none
  | _ => none

/-- Iteration of the `for org in organizations:` loop: process each
organization with `filterOrg`, propagating an exception (`none`) from any
ill-shaped organization. -/
def processOrgs (wratio : String → String → ℚ) (pipe_name : String)
    (threshold : ℚ) : List Py → Option (List (Option Py))
  | [] => some []
  | org :: rest =>
      match filterOrg wratio pipe_name threshold org with
      | none => none
      | some o =>
          match processOrgs wratio pipe_name threshold rest with
          | none => none
          | some tail => some (o :: tail)

/-- Embedding of `PipeService.search_pipes` after the single catalogue fetch:
`result` is the raw GraphQL response. When `pipe_name` is falsy (absent or
empty) the organizations are returned unchanged; otherwise each organization
is filtered through `filterOrg`. -/
def search_pipes (wratio : String → String → ℚ) (result : List (String × Py))
    (pipe_name : Option String) (match_threshold : ℚ) : Option Py :=
  let organizations := dictGetD result "organizations" (.list [])
  if !(match pipe_name with | none => false | some s => !s.isEmpty) then
    some (.dict [("organizations", organizations)])
  else
    match organizations with
    | .list orgs =>
        match processOrgs wratio (pipe_name.getD "") match_threshold orgs with
        | none => none
        | some processed =>
            some (.dict [("organizations", .list (processed.filterMap id))])
    | _ => none

end PipeService

/-! ### services/pipefy/base_client.py — the shared-client lock

`BasePipefyClient.execute_query` runs `async with self._client_lock: async
with self.client as session: await session.execute(...)`. We model two
logically concurrent `execute_query` calls on the same adapter instance as
an interleaving of atomic steps over a shared state, with a mock transport
that records a conflict if a session is opened while one is already open. -/

/-- Program counter of one `execute_query` invocation: waiting for the lock,
holding the lock, inside the session, after `session.execute`, after closing
the session, finished, or crashed on a transport conflict. -/
inductive TaskPc where
  | idle : TaskPc
  | hasLock : TaskPc
  | inSession : TaskPc
  | executed : TaskPc
  | closed : TaskPc
  | done : TaskPc
  | crashed : TaskPc
  deriving DecidableEq, Repr

/-- Shared state of the adapter under two concurrent `execute_query` calls
(the two tasks are indexed by `Bool`): each task's program counter, the
holder of `_client_lock` (if any), the number of open transport sessions,
and whether the mock transport has raised a connect-while-connected
conflict. -/
structure AdapterState where
  pc : Bool → TaskPc
  lock : Option Bool
  sessions : Nat
  conflict : Bool

/-- Update one task's program counter. -/
def setPc (pc : Bool → TaskPc) (t : Bool) (v : TaskPc) : Bool → TaskPc :=
  fun u => if u = t then v else pc u

/-- Initial state: both calls pending, lock free, no session open. -/
def initState : AdapterState :=
  { pc := fun _ => .idle, lock := none, sessions := 0, conflict := false }

/-- Interleaving semantics of the two `execute_query` calls. `acquire` is
the suspension point of `async with self._client_lock`; `openOk` /
`openConflict` model `async with self.client` against a transport that
raises when a second session is opened while one is open; `exec`, `close`
and `release` are the remaining steps of `execute_query`. -/
inductive AdapterStep : AdapterState → AdapterState → Prop where
  | acquire (s : AdapterState) (t : Bool) :
      s.pc t = .idle → s.lock = none →
      AdapterStep s { s with pc := setPc s.pc t .hasLock, lock := some t }
  | openOk (s : AdapterState) (t : Bool) :
      s.pc t = .hasLock → s.sessions = 0 →
      AdapterStep s { s with pc := setPc s.pc t .inSession, sessions := s.sessions + 1 }
  | openConflict (s : AdapterState) (t : Bool) :
      s.pc t = .hasLock → s.sessions ≠ 0 →
      AdapterStep s { s with pc := setPc s.pc t .crashed, conflict := true }
  | exec (s : AdapterState) (t : Bool) :
      s.pc t = .inSession →
      AdapterStep s { s with pc := setPc s.pc t .executed }
  | close (s : AdapterState) (t : Bool) :
      s.pc t = .executed →
      AdapterStep s { s with pc := setPc s.pc t .closed, sessions := s.sessions - 1 }
  | release (s : AdapterState) (t : Bool) :
      s.pc t = .closed →
      AdapterStep s { s with pc := setPc s.pc t .done, lock := none }

/-- States reachable from the initial state by interleaving the two calls. -/
def AdapterReachable (s : AdapterState) : Prop :=
  Relation.ReflTransGen AdapterStep initState s

/-- Program counters at which `execute_query` is between lock acquisition
and lock release. -/
def holdsLock : TaskPc → Bool
  | .hasLock => true
  | .inSession => true
  | .executed => true
  | .closed => true
  | _ => false

/-- Program counters at which the task has a transport session open. -/
def sessionOpen : TaskPc → Bool
  | .inSession => true
  | .executed => true
  | _ => false

/-- Number of open sessions implied by the two program counters. -/
def sessionCount (s : AdapterState) : Nat :=
  (if sessionOpen (s.pc false) then 1 else 0) + (if sessionOpen (s.pc true) then 1 else 0)

/-- Inductive invariant of the adapter: no conflict was ever raised, nobody
crashed, every task between acquire and release is the lock holder, the lock
holder is between acquire and release, and the session count matches the
program counters. -/
structure AdapterInv (s : AdapterState) : Prop where
  noConflict : s.conflict = false
  noCrash : ∀ t, s.pc t ≠ .crashed
  lockOwner : ∀ t, holdsLock (s.pc t) = true → s.lock = some t
  ownerHolds : ∀ t, s.lock = some t → holdsLock (s.pc t) = true
  count : s.sessions = sessionCount s

/-! ### tools/pipe_tools.py and tools/pipe_tool_helpers.py -/

/-- Network calls the `delete_card` tool can issue. -/
inductive NetCall where
  | getCard (card_id : Int) : NetCall
  | deleteCard (card_id : Int) : NetCall
  deriving DecidableEq, Repr

/-- Data the `delete_card` error path extracts from a raised exception: the
results of `_extract_graphql_error_codes` and
`_extract_graphql_correlation_id` (the string/regex extraction itself is
abstracted to its output). -/
structure RaisedExc where
  codes : List String
  correlationId : Option String

/-- Outcome of the card-preview fetch (`client.get_card` plus the
`card_response["card"]["title"]` / pipe-name extraction, whose failures all
land in the same `except` block). -/
inductive FetchOutcome where
  | ok (card_title : String) (pipe_name : String) : FetchOutcome
  | raised (e : RaisedExc) : FetchOutcome

/-- Outcome of the `ctx.elicit` confirmation round-trip: a result with an
action string and the elicited `confirm` flag, or an exception. -/
inductive ElicitOutcome where
  | result (action : String) (confirm : Bool) : ElicitOutcome
  | raised (msg : String) : ElicitOutcome

/-- Outcome of the `client.delete_card` mutation. -/
inductive DeleteOutcome where
  | resp (r : List (String × Py)) : DeleteOutcome
  | raised (e : RaisedExc) : DeleteOutcome

/-- Embedding of `build_delete_card_error_payload`. -/
def build_delete_card_error_payload (message : String) : Py :=
  .dict [("success", .bool false), ("error", .str message)]

/-- Embedding of `build_delete_card_success_payload`. -/
def build_delete_card_success_payload (card_id : Int) (card_title pipe_name : String) : Py :=
  .dict [("success", .bool true),
         ("card_id", .int card_id),
         ("card_title", .str card_title),
         ("pipe_name", .str pipe_name),
         ("message", .str ("Card \x27" ++ card_title ++ "\x27 (ID: " ++ toString card_id
            ++ ") from pipe \x27" ++ pipe_name ++ "\x27 has been permanently deleted."))]

/-- Embedding of `map_delete_card_error_to_message`: the first code among
`RESOURCE_NOT_FOUND` / `PERMISSION_DENIED` / `RECORD_NOT_DESTROYED` picks
its fixed message; otherwise a generic message, listing the codes when there
are any. -/
def map_delete_card_error_to_message (card_id : Int) (card_title : String)
    (codes : List String) : String :=
  match codes.find? (fun c =>
      c == "RESOURCE_NOT_FOUND" || c == "PERMISSION_DENIED" || c == "RECORD_NOT_DESTROYED") with
  | some c =>
      if c == "RESOURCE_NOT_FOUND" then
        "Card with ID " ++ toString card_id
          ++ " not found. Verify the card exists and you have access permissions."
      else if c == "PERMISSION_DENIED" then
        "You don\x27t have permission to delete card " ++ toString card_id
          ++ ". Please check your access permissions."
      else
        "Failed to delete card \x27" ++ card_title ++ "\x27 (ID: " ++ toString card_id
          ++ "). Please try again or contact support."
  | none =>
      if !codes.isEmpty then
        "Failed to delete card \x27" ++ card_title ++ "\x27 (ID: " ++ toString card_id
          ++ "). Codes: " ++ String.intercalate ", " codes
      else
        "Failed to delete card \x27" ++ card_title ++ "\x27 (ID: " ++ toString card_id
          ++ "). Please try again or contact support."

/-- Embedding of `_with_debug_suffix`. -/
def with_debug_suffix (message : String) (debug : Bool) (codes : List String)
    (correlation_id : Option String) : String :=
  if !debug then message
  else
    let parts :=
      (if !codes.isEmpty then ["codes=" ++ String.intercalate "," codes] else [])
        ++ (match correlation_id with
            | some c => if !c.isEmpty then ["correlation_id=" ++ c] else []
            | none => [])
    if parts.isEmpty then message
    else message ++ " (debug: " ++ String.intercalate "; " parts ++ ")"

/-- Error payload built by `delete_card`'s two `except` blocks around the
fetch and the delete mutation. -/
def deleteCardExcPayload (card_id : Int) (card_title : String) (debug : Bool)
    (e : RaisedExc) : Py :=
  build_delete_card_error_payload
    (with_debug_suffix (map_delete_card_error_to_message card_id card_title e.codes)
      debug e.codes e.correlationId)

/-- Embedding of the `delete_card` tool. The environment's behaviour (the
card-preview fetch, the elicitation round-trip, the delete mutation) is
passed in as outcome values; the function returns the tool's payload
together with the list of network calls it issued, in order. -/
def delete_card_tool (card_id : Int) (debug : Bool) (canElicit : Bool)
    (fetch : FetchOutcome) (elicit : ElicitOutcome) (del : DeleteOutcome) :
    Py × List NetCall :=
  if card_id ≤ 0 then
    (build_delete_card_error_payload "Invalid \x27card_id\x27. Please provide a positive integer.", [])
  else
    match fetch with
    | .raised e => (deleteCardExcPayload card_id "Unknown" debug e, [.getCard card_id])
    | .ok card_title pipe_name =>
        let gate : Option Py :=
          if canElicit then
            match elicit with
            | .raised msg =>
                some (build_delete_card_error_payload ("Failed to request confirmation: " ++ msg))
            | .result action confirm =>
                if action ≠ "accept" then
                  some (build_delete_card_error_payload "Card deletion cancelled by user.")
                else if !confirm then
                  some (build_delete_card_error_payload "Card deletion cancelled by user.")
                else none
          else none
        match gate with
        | some payload => (payload, [.getCard card_id])
        | none =>
            match del with
            | .raised e =>
                (deleteCardExcPayload card_id card_title debug e,
                 [.getCard card_id, .deleteCard card_id])
            | .resp r =>
                match dictGetD r "deleteCard" (.dict []) with
                | .dict dd =>
                    if (dictGetD dd "success" .pyNone).truthy then
                      (build_delete_card_success_payload card_id card_title pipe_name,
                       [.getCard card_id, .deleteCard card_id])
                    else
                      (build_delete_card_error_payload
                        ("Failed to delete card \x27" ++ card_title ++ "\x27 (ID: "
                          ++ toString card_id ++ "). Please try again or contact support."),
                       [.getCard card_id, .deleteCard card_id])
                | _ =>
                    -- a non-dict `deleteCard` value makes `.get("success")` raise
                    -- `AttributeError`, caught by the surrounding `except` (no
                    -- codes or correlation id are extractable from it)
                    (deleteCardExcPayload card_id card_title debug ⟨[], none⟩,
                     [.getCard card_id, .deleteCard card_id])

/-- Embedding of the `card_link` post-processing at the end of the
`create_card` tool: extract `result["createCard"]["card"]["id"]` with
`.get` defaults, and when it is truthy set `result["card_link"]` to a
markdown link around the derived URL; `none` models the `AttributeError`
Python raises when a `.get` target is not a dict. -/
def create_card_link_post (result : List (String × Py)) :
    Option (List (String × Py)) :=
  match dictGetD result "createCard" (.dict []) with
  | .dict kvs1 =>
      match dictGetD kvs1 "card" (.dict []) with
      | .dict kvs2 =>
          let card_id := dictGetD kvs2 "id" .pyNone
          if card_id.truthy then
            let card_url := "https://app.pipefy.com/open-cards/" ++ pyStr card_id
            some (dictSet result "card_link" (.str ("[" ++ card_url ++ "](" ++ card_url ++ ")")))
          else some result
      | _ => none
  | _ => none

/-! ### Error classification for the comment tools -/

/-- Boolean test that `needle` occurs as a contiguous run inside `hay`
(lists of characters). -/
def startsWithChars : List Char → List Char → Bool
  | [], _ => true
  | _ :: _, [] => false
  | a :: as, b :: bs => a == b && startsWithChars as bs

/-- Occurrence of `needle` anywhere inside `hay`. -/
def containsChars (needle : List Char) : List Char → Bool
  | [] => startsWithChars needle []
  | b :: bs => startsWithChars needle (b :: bs) || containsChars needle bs

/-- Python `needle in hay` on strings. -/
def strContains (hay needle : String) : Bool :=
  containsChars needle.toList hay.toList

/-- Embedding of `_extract_error_strings`: the exception's own string (when
non-empty) followed by every non-empty string found in its `errors`
attribute, either as `errors[i]["message"]` or as a bare string item. -/
def extract_error_strings (raw : String) (errorsAttr : Option Py) : List String :=
  (if !raw.isEmpty then [raw] else [])
    ++ (match errorsAttr with
        | some (.list items) =>
            items.filterMap (fun item =>
              match item with
              | .dict kvs =>
                  match dictFind kvs "message" with
                  | some (.str m) => if !m.isEmpty then some m else none
                  | _ => none
              | .str s => if !s.isEmpty then some s else none
              | _ => none)
        | _ => [])

/-- Marker list `_NOT_FOUND_MARKERS`. -/
def NOT_FOUND_MARKERS : List String :=
  ["not found", "record not found", "could not find", "does not exist", "doesn\x27t exist"]

/-- Marker list `_PERMISSION_MARKERS`. -/
def PERMISSION_MARKERS : List String :=
  ["permission", "not authorized", "unauthorized", "forbidden", "access denied", "not allowed"]

/-- Marker list `_INVALID_INPUT_MARKERS`. -/
def INVALID_INPUT_MARKERS : List String :=
  ["invalid", "validation", "must be", "can\x27t be", "cannot be", "required", "blank"]

/-- Haystack the classifier scans: the lower-cased space-joined
concatenation of the extracted error strings. -/
def classifierHaystack (messages : List String) : String :=
  pyLower (String.intercalate " " messages)

/-- True when some marker of `markers` occurs in `haystack`. -/
def anyMarker (markers : List String) (haystack : String) : Bool :=
  markers.any (fun m => strContains haystack m)

/-- Embedding of `_map_comment_like_error` (pipe_tool_helpers.py): fixed
precedence not-found ▸ permission ▸ invalid-input ▸ fallback over the
lower-cased haystack. -/
def map_comment_like_error (messages : List String)
    (not_found_msg permission_msg invalid_msg fallback_msg : String)
    (invalid_markers : Option (List String)) : String :=
  let haystack := classifierHaystack messages
  let markers := invalid_markers.getD INVALID_INPUT_MARKERS
  if anyMarker NOT_FOUND_MARKERS haystack then not_found_msg
  else if anyMarker PERMISSION_MARKERS haystack then permission_msg
  else if anyMarker markers haystack then invalid_msg
  else fallback_msg

/-- Embedding of `map_add_card_comment_error_to_message` (the version in
pipe_tools.py inlines the same marker lists and messages). -/
def map_add_card_comment_error_to_message (raw : String) (errorsAttr : Option Py) : String :=
  map_comment_like_error (extract_error_strings raw errorsAttr)
    "Card not found. Please verify \x27card_id\x27 and access permissions."
    "You don\x27t have permission to comment on this card."
    "Invalid input. Please provide a valid \x27card_id\x27 and non-empty \x27text\x27."
    "Unexpected error while adding comment. Please try again."
    none

/-! ## Theorems

Helper lemmas come first, then one theorem per claim (with witnesses for
theorems that carry hypotheses). -/

/-- Formatted entry as the spec describes it: `fieldId`/`value` copied,
`operation` the upper-cased operation string (default `"REPLACE"` when
absent), `generatedByAi` true. -/
def specFormattedEntry (v : List (String × Py)) : Py :=
  .dict [("fieldId", dictGetD v "field_id" .pyNone),
         ("value", dictGetD v "value" .pyNone),
         ("operation", .str (match dictFind v "operation" with
                             | some op => pyUpper (pyStr op)
                             | none => "REPLACE")),
         ("generatedByAi", .bool true)]

lemma specFormattedEntry_eq (v : List (String × Py)) :
    specFormattedEntry v =
      .dict [("fieldId", dictGetD v "field_id" .pyNone),
             ("value", dictGetD v "value" .pyNone),
             ("operation", .str (pyUpper (pyStr (dictGetD v "operation" (.str "REPLACE"))))),
             ("generatedByAi", .bool true)] := by
  unfold specFormattedEntry dictGetD
  cases hop : dictFind v "operation" with
  | none =>
      simp only [Option.getD_none, Option.getD_some]
      have h : pyUpper (pyStr (.str "REPLACE")) = "REPLACE" := by decide
      simp [h]
  | some op => simp

lemma convertValuesGo_ok (i : Nat) (vs : List (List (String × Py)))
    (h : ∀ v ∈ vs, dictHasKey v "field_id" = true ∧ dictHasKey v "value" = true) :
    convertValuesGo i vs = .ok (vs.map specFormattedEntry) := by
  induction vs generalizing i with
  | nil => rfl
  | cons v rest ih =>
      have hv := h v (by simp)
      have hrest : ∀ w ∈ rest, dictHasKey w "field_id" = true ∧ dictHasKey w "value" = true :=
        fun w hw => h w (by simp [hw])
      simp [convertValuesGo, hv.1, hv.2, ih (i + 1) hrest, specFormattedEntry_eq]

lemma convertValuesGo_err (vs : List (List (String × Py))) (i k : Nat)
    (hk : k < vs.length)
    (hpre : ∀ j, ∀ hj : j < vs.length, j < k →
        dictHasKey (vs.get ⟨j, hj⟩) "field_id" = true ∧ dictHasKey (vs.get ⟨j, hj⟩) "value" = true)
    (hbad : ¬ (dictHasKey (vs.get ⟨k, hk⟩) "field_id" = true ∧ dictHasKey (vs.get ⟨k, hk⟩) "value" = true)) :
    convertValuesGo i vs = .error
      (if dictHasKey (vs.get ⟨k, hk⟩) "field_id" then
         "Value at index " ++ toString (i + k) ++ " is missing required \x27value\x27 key"
       else
         "Value at index " ++ toString (i + k) ++ " is missing required \x27field_id\x27 key") := by
  induction vs generalizing i k with
  | nil => exact absurd hk (by simp)
  | cons v rest ih =>
      cases k with
      | zero =>
          have hg : (v :: rest).get ⟨0, hk⟩ = v := rfl
          simp only [hg] at hbad ⊢
          cases hf : dictHasKey v "field_id" with
          | false => simp [convertValuesGo, hf]
          | true =>
              cases hv : dictHasKey v "value" with
              | false => simp [convertValuesGo, hf, hv]
              | true => exact absurd ⟨hf, hv⟩ hbad
      | succ k' =>
          have hk' : k' < rest.length := by simpa using Nat.lt_of_succ_lt_succ hk
          have hg : (v :: rest).get ⟨k' + 1, hk⟩ = rest.get ⟨k', hk'⟩ := rfl
          have h0f : dictHasKey v "field_id" = true := (hpre 0 (by simp) (Nat.succ_pos k')).1
          have h0v : dictHasKey v "value" = true := (hpre 0 (by simp) (Nat.succ_pos k')).2
          have hpre' : ∀ j, ∀ hj : j < rest.length, j < k' →
              dictHasKey (rest.get ⟨j, hj⟩) "field_id" = true ∧
                dictHasKey (rest.get ⟨j, hj⟩) "value" = true := by
            intro j hj hjk
            have := hpre (j + 1) (by simpa using Nat.succ_lt_succ hj) (Nat.succ_lt_succ hjk)
            simpa using this
          have hbad' : ¬ (dictHasKey (rest.get ⟨k', hk'⟩) "field_id" = true ∧
              dictHasKey (rest.get ⟨k', hk'⟩) "value" = true) := by
            simpa only [hg] using hbad
          have hrec := ih (i + 1) k' hk' hpre' hbad'
          have hidx : i + 1 + k' = i + (k' + 1) := by omega
          simp only [hg]
          simp [convertValuesGo, h0f, h0v, hrec, hidx]

/-- C2: every field-update entry `{field_id, value, operation?}` is mapped to
`{fieldId, value, operation: upper-cased operation (default "REPLACE"),
generatedByAi: true}`, and an entry missing `field_id` or `value` makes the
formatter raise a validation error naming the index of the first offending
entry. -/
theorem incremental_formatter_spec (values : List (List (String × Py))) :
    ((∀ v ∈ values, dictHasKey v "field_id" = true ∧ dictHasKey v "value" = true) →
        convert_values_to_camel_case values = .ok (values.map specFormattedEntry))
  ∧ (∀ k, ∀ hk : k < values.length,
      (∀ j, ∀ hj : j < values.length, j < k →
          dictHasKey (values.get ⟨j, hj⟩) "field_id" = true ∧
            dictHasKey (values.get ⟨j, hj⟩) "value" = true) →
      ¬ (dictHasKey (values.get ⟨k, hk⟩) "field_id" = true ∧
          dictHasKey (values.get ⟨k, hk⟩) "value" = true) →
      convert_values_to_camel_case values = .error
        (if dictHasKey (values.get ⟨k, hk⟩) "field_id" then
           "Value at index " ++ toString k ++ " is missing required \x27value\x27 key"
         else
           "Value at index " ++ toString k ++ " is missing required \x27field_id\x27 key")) := by
  constructor
  · intro h
    exact convertValuesGo_ok 0 values h
  · intro k hk hpre hbad
    have := convertValuesGo_err values 0 k hk hpre hbad
    simpa using this

/-- Witness for C2: a concrete well-formed entry is formatted as specified,
and a concrete entry missing `field_id` at index 0 yields the validation
error naming index 0. -/
theorem incremental_formatter_spec_witness :
    convert_values_to_camel_case [[("field_id", .str "status"), ("value", .str "done")]] =
      .ok [.dict [("fieldId", .str "status"), ("value", .str "done"),
                  ("operation", .str "REPLACE"), ("generatedByAi", .bool true)]]
  ∧ convert_values_to_camel_case [[("value", .str "done")]] =
      .error "Value at index 0 is missing required \x27field_id\x27 key" := by
  constructor
  · have := (incremental_formatter_spec [[("field_id", .str "status"), ("value", .str "done")]]).1
      (by intro v hv; simp at hv; subst hv; exact ⟨rfl, rfl⟩)
    simpa [specFormattedEntry, dictGetD, dictFind, pyStr] using this
  · have := (incremental_formatter_spec [[("value", .str "done")]]).2 0 (by simp)
      (by intro j hj hjk; omega)
      (by intro hcon; exact absurd hcon.1 (by decide))
    simpa using this

/-- C3: `create_card`'s fields conversion turns a map into the
`field_id`/`field_value`/`generated_by_ai: true` list in iteration order,
passes a list through entry by entry (defaulting `generated_by_ai` to true
only on dict entries lacking it), wraps any other truthy value in a
singleton list, and turns falsy input (including `None` and the empty map)
into the empty list. -/
theorem create_card_fields_conversion (fields : Py) :
    (∀ kvs, fields = .dict kvs →
        convert_fields_to_array fields =
          kvs.map (fun p => .dict [("field_id", .str p.1), ("field_value", p.2),
                                   ("generated_by_ai", .bool true)]))
  ∧ (∀ items, fields = .list items →
        convert_fields_to_array fields =
          items.map (fun item =>
            match item with
            | .dict kvs =>
                if dictHasKey kvs "generated_by_ai" then .dict kvs
                else .dict (kvs ++ [("generated_by_ai", .bool true)])
            | other => other))
  ∧ ((∀ kvs, fields ≠ .dict kvs) → (∀ items, fields ≠ .list items) →
        convert_fields_to_array fields = if fields.truthy then [fields] else [])
  ∧ (fields.truthy = false → convert_fields_to_array fields = []) := by
  refine ⟨?_, ?_, ?_, ?_⟩
  · intro kvs h
    subst h
    rfl
  · intro items h
    subst h
    simp only [convert_fields_to_array]
    exact List.map_congr_left (fun item _ => by cases item <;> rfl)
  · intro hd hl
    cases fields with
    | dict kvs => exact absurd rfl (hd kvs)
    | list items => exact absurd rfl (hl items)
    | pyNone => rfl
    | bool b => rfl
    | int n => rfl
    | rat q => rfl
    | str s => rfl
  · intro h
    cases fields with
    | dict kvs =>
        simp only [Py.truthy] at h
        simp only [convert_fields_to_array]
        simp [List.isEmpty_iff.mp (by simpa using h)]
    | list items =>
        simp only [Py.truthy] at h
        simp [convert_fields_to_array, List.isEmpty_iff.mp (by simpa using h)]
    | pyNone => rfl
    | bool b =>
        simp only [Py.truthy] at h
        simp [convert_fields_to_array, Py.truthy, h]
    | int n =>
        simp only [Py.truthy] at h
        simp [convert_fields_to_array, Py.truthy, h]
    | rat q =>
        simp only [Py.truthy] at h
        simp [convert_fields_to_array, Py.truthy, h]
    | str s =>
        simp only [Py.truthy] at h
        simp [convert_fields_to_array, Py.truthy, h]

/-- Witness for C3: the spec's concrete examples — a two-entry map, the
empty map, `None`, and a truthy non-container value. -/
theorem create_card_fields_conversion_witness :
    convert_fields_to_array (.dict [("a", .int 1), ("b", .int 2)]) =
      [.dict [("field_id", .str "a"), ("field_value", .int 1), ("generated_by_ai", .bool true)],
       .dict [("field_id", .str "b"), ("field_value", .int 2), ("generated_by_ai", .bool true)]]
  ∧ convert_fields_to_array (.dict []) = []
  ∧ convert_fields_to_array .pyNone = []
  ∧ convert_fields_to_array (.str "x") = [.str "x"] := by
  refine ⟨?_, ?_, ?_, ?_⟩
  · exact (create_card_fields_conversion (.dict [("a", .int 1), ("b", .int 2)])).1 _ rfl
  · exact ((create_card_fields_conversion (.dict [])).2.2.2 (by rfl))
  · exact ((create_card_fields_conversion .pyNone).2.2.2 (by rfl))
  · have := (create_card_fields_conversion (.str "x")).2.2.1
      (by intro kvs h; exact absurd h (by simp)) (by intro items h; exact absurd h (by simp))
    simpa using this

lemma updateCardInput_find (card_id : Int) (title : Option String)
    (assignee_ids : Option (List Int)) (label_ids : Option (List Int))
    (due_date : Option String) :
    dictFind (updateCardInput card_id title assignee_ids label_ids due_date) "id"
        = some (.int card_id)
  ∧ dictFind (updateCardInput card_id title assignee_ids label_ids due_date) "title"
        = title.map Py.str
  ∧ dictFind (updateCardInput card_id title assignee_ids label_ids due_date) "assignee_ids"
        = assignee_ids.map (fun l => Py.list (l.map Py.int))
  ∧ dictFind (updateCardInput card_id title assignee_ids label_ids due_date) "label_ids"
        = label_ids.map (fun l => Py.list (l.map Py.int))
  ∧ dictFind (updateCardInput card_id title assignee_ids label_ids due_date) "due_date"
        = due_date.map Py.str
  ∧ ∀ kv ∈ updateCardInput card_id title assignee_ids label_ids due_date,
      kv.1 ∈ (["id", "title", "assignee_ids", "label_ids", "due_date"] : List String) := by
  cases title <;> cases assignee_ids <;> cases label_ids <;> cases due_date <;>
    simp [updateCardInput, dictFind, List.find?]

/-- C1: `update_card` with non-empty `field_updates` issues exactly one
call, the incremental `updateFieldsValues` mutation with input
`{nodeId: card_id, values: formatted field_updates}`, never the
attribute-update mutation; with `field_updates` empty or omitted it issues
exactly one `updateCard` mutation whose input holds `id` plus exactly the
non-null attributes. The two paths are mutually exclusive per call. -/
theorem update_card_mutation_selection (card_id : Int) (title : Option String)
    (assignee_ids : Option (List Int)) (label_ids : Option (List Int))
    (due_date : Option String) (field_updates : Option (List (List (String × Py)))) :
    (∀ fu, field_updates = some fu → fu ≠ [] →
        ∀ calls, CardService.update_card card_id title assignee_ids label_ids
            due_date field_updates = .ok calls →
          calls.length = 1 ∧
          (∀ c ∈ calls, c.doc ≠ .updateCard) ∧
          ∃ vals, convert_values_to_camel_case fu = .ok vals ∧
            calls = [⟨.updateFieldsValues,
                      .dict [("input", .dict [("nodeId", .int card_id),
                                              ("values", .list vals)])]⟩])
  ∧ ((field_updates = none ∨ field_updates = some []) →
        ∃ input, CardService.update_card card_id title assignee_ids label_ids
            due_date field_updates = .ok [⟨.updateCard, .dict [("input", .dict input)]⟩] ∧
          dictFind input "id" = some (.int card_id) ∧
          dictFind input "title" = title.map Py.str ∧
          dictFind input "assignee_ids" = assignee_ids.map (fun l => Py.list (l.map Py.int)) ∧
          dictFind input "label_ids" = label_ids.map (fun l => Py.list (l.map Py.int)) ∧
          dictFind input "due_date" = due_date.map Py.str ∧
          ∀ kv ∈ input, kv.1 ∈ (["id", "title", "assignee_ids", "label_ids", "due_date"] : List String)) := by
  constructor
  · intro fu hfu hne calls hcalls
    subst hfu
    have htruthy : fieldUpdatesTruthy (some fu) = true := by
      simp [fieldUpdatesTruthy, hne]
    rw [CardService.update_card, if_pos htruthy] at hcalls
    cases hconv : convert_values_to_camel_case ((some fu).getD []) with
    | error e => rw [hconv] at hcalls; exact absurd hcalls (by simp)
    | ok vals =>
        rw [hconv] at hcalls
        simp only [Except.ok.injEq] at hcalls
        subst hcalls
        refine ⟨rfl, ?_, vals, by simpa using hconv, rfl⟩
        intro c hc
        simp only [List.mem_singleton] at hc
        subst hc
        simp
  · intro h
    have htruthy : fieldUpdatesTruthy field_updates = false := by
      rcases h with h | h <;> subst h <;> simp [fieldUpdatesTruthy]
    refine ⟨updateCardInput card_id title assignee_ids label_ids due_date, ?_, ?_⟩
    · rw [CardService.update_card, if_neg (by simp [htruthy])]
    · exact updateCardInput_find card_id title assignee_ids label_ids due_date

/-- Witness for C1: the spec's concrete example — one field update routes to
the incremental mutation with the documented shape, and the omitted case
routes to the attribute mutation with only `id` and `title`. -/
theorem update_card_mutation_selection_witness :
    CardService.update_card 42 none none none none
        (some [[("field_id", .str "status"), ("value", .str "done")]]) =
      .ok [⟨.updateFieldsValues,
            .dict [("input", .dict [("nodeId", .int 42),
              ("values", .list [.dict [("fieldId", .str "status"), ("value", .str "done"),
                ("operation", .str "REPLACE"), ("generatedByAi", .bool true)]])])]⟩]
  ∧ ∃ input, CardService.update_card 42 (some "T") none none none none =
        .ok [⟨.updateCard, .dict [("input", .dict input)]⟩] ∧
      dictFind input "id" = some (.int 42) ∧
      dictFind input "title" = some (.str "T") := by
  constructor
  · have h := (update_card_mutation_selection 42 none none none none
        (some [[("field_id", .str "status"), ("value", .str "done")]])).1
        [[("field_id", .str "status"), ("value", .str "done")]] rfl (by simp)
    have hrun : CardService.update_card 42 none none none none
        (some [[("field_id", .str "status"), ("value", .str "done")]]) =
        .ok [⟨.updateFieldsValues,
              .dict [("input", .dict [("nodeId", .int 42),
                ("values", .list [.dict [("fieldId", .str "status"), ("value", .str "done"),
                  ("operation", .str "REPLACE"), ("generatedByAi", .bool true)]])])]⟩] := by
      simp [CardService.update_card, fieldUpdatesTruthy, convert_values_to_camel_case,
            convertValuesGo, dictHasKey, dictFind, dictGetD, pyStr]
      decide
    obtain ⟨hlen, hnever, vals, hconv, hcalls⟩ := h _ hrun
    exact hrun
  · obtain ⟨input, hrun, hid, htitle, _⟩ :=
      (update_card_mutation_selection 42 (some "T") none none none none).2 (Or.inl rfl)
    exact ⟨input, hrun, hid, htitle⟩

/-- Truthiness of a start-form field's `required` attribute as the spec
reads it ("fields with `required` truthy"); non-dict fields count as not
required. -/
def requiredTruthy (f : Py) : Bool :=
  match f with
  | .dict kvs => (dictGetD kvs "required" .pyNone).truthy
  | _ => false

lemma fieldRequired_eq (f : Py) (kvs : List (String × Py)) (h : f = .dict kvs) :
    fieldRequired f = some (requiredTruthy f) := by
  subst h; rfl

lemma mapM_fieldRequired (fields : List Py)
    (hshape : ∀ f ∈ fields, ∃ kvs, f = Py.dict kvs) :
    tagRequired fields = some (fields.map (fun f => (f, requiredTruthy f))) := by
  induction fields with
  | nil => rfl
  | cons f rest ih =>
      obtain ⟨kvs, hf⟩ := hshape f (by simp)
      have hr := fieldRequired_eq f kvs hf
      have ihr := ih (fun g hg => hshape g (by simp [hg]))
      simp [tagRequired, hr, ihr]

lemma tagged_filter_map (fields : List Py) (g : Py → Bool) :
    (((fields.map (fun f => (f, g f))).filter (fun p => p.2)).map (fun p => p.1)) =
      fields.filter g := by
  induction fields with
  | nil => rfl
  | cons f rest ih => by_cases hg : g f <;> simp [List.filter, hg, ih]

/-- C4: `get_start_form_fields` returns the fixed "no start form fields"
message with an empty list when the API reports zero fields, the distinct
"no required fields" message when `required_only` filters a non-empty list
to zero, and otherwise the (order-preserving) field list, filtered to the
`required`-truthy fields when `required_only` is set. -/
theorem get_start_form_fields_policy (fields : List Py) (required_only : Bool)
    (hshape : ∀ f ∈ fields, ∃ kvs, f = Py.dict kvs) :
    (fields = [] →
        PipeService.get_start_form_fields
            [("pipe", .dict [("start_form_fields", .list fields)])] required_only =
          some (.dict [("message", .str "This pipe has no start form fields configured."),
                       ("start_form_fields", .list [])]))
  ∧ (required_only = true → fields ≠ [] → fields.filter requiredTruthy = [] →
        PipeService.get_start_form_fields
            [("pipe", .dict [("start_form_fields", .list fields)])] required_only =
          some (.dict [("message", .str "This pipe has no required fields in the start form."),
                       ("start_form_fields", .list [])]))
  ∧ (required_only = true → fields.filter requiredTruthy ≠ [] →
        PipeService.get_start_form_fields
            [("pipe", .dict [("start_form_fields", .list fields)])] required_only =
          some (.dict [("start_form_fields", .list (fields.filter requiredTruthy))]))
  ∧ (required_only = false → fields ≠ [] →
        PipeService.get_start_form_fields
            [("pipe", .dict [("start_form_fields", .list fields)])] required_only =
          some (.dict [("start_form_fields", .list fields)])) := by
  have hpipe : dictGetD [("pipe", Py.dict [("start_form_fields", Py.list fields)])] "pipe" (.dict [])
      = .dict [("start_form_fields", Py.list fields)] := rfl
  have hfields : dictGetD [("start_form_fields", Py.list fields)] "start_form_fields" (.list [])
      = .list fields := rfl
  refine ⟨?_, ?_, ?_, ?_⟩
  · intro h
    subst h
    rfl
  · intro hro hne hkept
    subst hro
    have hmm := mapM_fieldRequired fields hshape
    have hfil := tagged_filter_map fields requiredTruthy
    simp [PipeService.get_start_form_fields, hpipe, hfields, Py.truthy,
          List.isEmpty_eq_true, hne, hmm, hfil, hkept]
  · intro hro hkept
    subst hro
    have hne : fields ≠ [] := by
      intro h; subst h; exact hkept rfl
    have hmm := mapM_fieldRequired fields hshape
    have hfil := tagged_filter_map fields requiredTruthy
    simp [PipeService.get_start_form_fields, hpipe, hfields, Py.truthy,
          List.isEmpty_eq_true, hne, hmm, hfil, hkept]
  · intro hro hne
    subst hro
    simp [PipeService.get_start_form_fields, hpipe, hfields, Py.truthy,
          List.isEmpty_eq_true, hne]

/-- Witness for C4: the spec's example — a three-field form filtered with
`required_only=True` keeps the two required fields in order, and the empty
form yields the fixed message. -/
theorem get_start_form_fields_policy_witness :
    PipeService.get_start_form_fields
        [("pipe", .dict [("start_form_fields", .list
          [.dict [("id", .str "title"), ("required", .bool true)],
           .dict [("id", .str "priority"), ("required", .bool false)],
           .dict [("id", .str "due_date"), ("required", .bool true)]])])] true =
      some (.dict [("start_form_fields", .list
        [.dict [("id", .str "title"), ("required", .bool true)],
         .dict [("id", .str "due_date"), ("required", .bool true)]])])
  ∧ PipeService.get_start_form_fields
        [("pipe", .dict [("start_form_fields", .list ([] : List Py))])] false =
      some (.dict [("message", .str "This pipe has no start form fields configured."),
                   ("start_form_fields", .list [])]) := by
  constructor
  · have h := (get_start_form_fields_policy
        [.dict [("id", .str "title"), ("required", .bool true)],
         .dict [("id", .str "priority"), ("required", .bool false)],
         .dict [("id", .str "due_date"), ("required", .bool true)]] true
        (by intro f hf; simp at hf; rcases hf with h | h | h <;> exact ⟨_, h⟩)).2.2.1 rfl
    have hfil : ([.dict [("id", .str "title"), ("required", .bool true)],
         .dict [("id", .str "priority"), ("required", .bool false)],
         .dict [("id", .str "due_date"), ("required", .bool true)]] : List Py).filter requiredTruthy =
        [.dict [("id", .str "title"), ("required", .bool true)],
         .dict [("id", .str "due_date"), ("required", .bool true)]] := rfl
    rw [hfil] at h
    exact h (by simp)
  · exact (get_start_form_fields_policy [] false (by simp)).1 rfl

/-- Display name of a pipe as `search_pipes` reads it:
`pipe.get("name", "")`, as a string. -/
def pipeDisplayName (p : List (String × Py)) : String :=
  pyStr (dictGetD p "name" (.str ""))

lemma matchingPipes_eq (wratio : String → String → ℚ) (pn : String) (thr : ℚ)
    (hthr : 0 < thr) (pipes : List (List (String × Py)))
    (hnames : ∀ p ∈ pipes, ∃ s, dictGetD p "name" (.str "") = .str s) :
    PipeService.matchingPipes wratio pn thr (pipes.map Py.dict) =
      some ((pipes.filter (fun p => decide (thr ≤ wratio pn (pipeDisplayName p)))).map
        (fun p => (wratio pn (pipeDisplayName p), p))) := by
  induction pipes with
  | nil => rfl
  | cons p rest ih =>
      obtain ⟨s, hs⟩ := hnames p (by simp)
      have ihr := ih (fun q hq => hnames q (by simp [hq]))
      have hname : pipeDisplayName p = s := by simp [pipeDisplayName, hs, pyStr]
      by_cases hle : thr ≤ wratio pn s
      · have hne : PipeService.pipeScore wratio pn s thr ≠ 0 := by
          simp only [PipeService.pipeScore, if_pos hle]
          exact ne_of_gt (lt_of_lt_of_le hthr hle)
        have hsc : PipeService.pipeScore wratio pn s thr = wratio pn s := by
          simp [PipeService.pipeScore, hle]
        have hne2 : wratio pn s ≠ 0 := fun h => hne (by rw [hsc, h])
        simp [PipeService.matchingPipes, hs, ihr, hne, hne2, hsc, List.filter, hname, hle]
      · have hz : PipeService.pipeScore wratio pn s thr = 0 := by
          simp [PipeService.pipeScore, hle]
        simp [PipeService.matchingPipes, hs, ihr, hz, List.filter, hname, hle]

lemma processOrgs_eq (wratio : String → String → ℚ) (pn : String) (thr : ℚ)
    (orgs : List Py)
    (h : ∀ org ∈ orgs, PipeService.filterOrg wratio pn thr org ≠ none) :
    PipeService.processOrgs wratio pn thr orgs =
      some (orgs.map (fun org => (PipeService.filterOrg wratio pn thr org).getD none)) := by
  induction orgs with
  | nil => rfl
  | cons org rest ih =>
      have h0 := h org (by simp)
      obtain ⟨o, ho⟩ := Option.ne_none_iff_exists'.mp h0
      have ihr := ih (fun g hg => h g (by simp [hg]))
      simp [PipeService.processOrgs, ho, ihr]

/-- C5: `search_pipes` with a search term keeps exactly the pipes whose
fuzzy score reaches `match_threshold`, decorates each kept pipe with its
`match_score` rounded to one decimal, sorts kept pipes per organization in
descending score order, and drops organizations with no kept pipe; with the
term omitted or empty it returns all organizations unchanged. The
third-party scorer (`fuzz.WRatio`) is abstracted as the parameter
`wratio`. -/
theorem search_pipes_shaping (wratio : String → String → ℚ) (match_threshold : ℚ) :
    (∀ result : List (String × Py),
        PipeService.search_pipes wratio result none match_threshold =
          some (.dict [("organizations", dictGetD result "organizations" (.list []))]) ∧
        PipeService.search_pipes wratio result (some "") match_threshold =
          some (.dict [("organizations", dictGetD result "organizations" (.list []))]))
  ∧ (0 < match_threshold →
      ∀ pn : String, ∀ orgKvs : List (String × Py), ∀ pipes : List (List (String × Py)),
        dictGetD orgKvs "pipes" (.list []) = .list (pipes.map Py.dict) →
        (∀ p ∈ pipes, ∃ s, dictGetD p "name" (.str "") = .str s) →
        (pipes.filter (fun p => decide (match_threshold ≤ wratio pn (pipeDisplayName p))) = [] →
            PipeService.filterOrg wratio pn match_threshold (.dict orgKvs) = some none) ∧
        (pipes.filter (fun p => decide (match_threshold ≤ wratio pn (pipeDisplayName p))) ≠ [] →
            ∃ sortedPairs : List (ℚ × List (String × Py)),
              sortedPairs.Perm
                ((pipes.filter (fun p => decide (match_threshold ≤ wratio pn (pipeDisplayName p)))).map
                  (fun p => (wratio pn (pipeDisplayName p), p))) ∧
              sortedPairs.Pairwise (fun a b => b.1 ≤ a.1) ∧
              PipeService.filterOrg wratio pn match_threshold (.dict orgKvs) =
                some (some (.dict
                  [("id", dictGetD orgKvs "id" .pyNone),
                   ("name", dictGetD orgKvs "name" .pyNone),
                   ("pipes", .list (sortedPairs.map (fun q =>
                      .dict (dictSet q.2 "match_score" (.rat (round1 q.1))))))]))))
  ∧ (∀ pn : String, pn ≠ "" → ∀ orgs : List Py,
        (∀ org ∈ orgs, PipeService.filterOrg wratio pn match_threshold org ≠ none) →
        PipeService.search_pipes wratio [("organizations", .list orgs)] (some pn) match_threshold =
          some (.dict [("organizations", .list
            ((orgs.map (fun org =>
                (PipeService.filterOrg wratio pn match_threshold org).getD none)).filterMap id))])) := by
  refine ⟨?_, ?_, ?_⟩
  · intro result
    constructor
    · simp [PipeService.search_pipes]
    · simp [PipeService.search_pipes]
      intro h
      exact absurd h (by decide)
  · intro hthr pn orgKvs pipes hpipes hnames
    have hmp := matchingPipes_eq wratio pn match_threshold hthr pipes hnames
    constructor
    · intro hkept
      simp [PipeService.filterOrg, hpipes, hmp, hkept]
    · intro hkept
      refine ⟨(((pipes.filter (fun p => decide (match_threshold ≤ wratio pn (pipeDisplayName p)))).map
          (fun p => (wratio pn (pipeDisplayName p), p))).mergeSort (fun a b => decide (b.1 ≤ a.1))),
        List.mergeSort_perm _ _, ?_, ?_⟩
      · have hp := @List.sorted_mergeSort (ℚ × List (String × Py))
          (fun a b => decide (b.1 ≤ a.1))
          (fun a b c hab hbc => by
            simp only [decide_eq_true_eq] at *
            exact le_trans hbc hab)
          (fun a b => by
            simp only [Bool.or_eq_true, decide_eq_true_eq]
            exact le_total b.1 a.1)
          ((pipes.filter (fun p => decide (match_threshold ≤ wratio pn (pipeDisplayName p)))).map
            (fun p => (wratio pn (pipeDisplayName p), p)))
        exact hp.imp (fun h => of_decide_eq_true h)
      · simp [PipeService.filterOrg, hpipes, hmp, hkept]
  · intro pn hpn orgs horgs
    have hpo := processOrgs_eq wratio pn match_threshold orgs horgs
    simp [PipeService.search_pipes, hpn, hpo, dictGetD, dictFind]
    intro h
    exact absurd ((String.isEmpty_iff pn).mp h) hpn

/-- Concrete stand-in scorer used only to witness the `search_pipes`
shaping theorem on closed inputs. -/
def wrDemo (a b : String) : ℚ := if a == b then 100 else 10

/-- Witness for C5: with a concrete scorer, an omitted term returns the
organizations unchanged, and a term matching no pipe drops the organization,
yielding `{organizations: []}`. -/
theorem search_pipes_shaping_witness :
    PipeService.search_pipes wrDemo
        [("organizations", .list [.dict [("id", .int 1),
          ("pipes", .list [.dict [("name", .str "Other")]])]])] none 70 =
      some (.dict [("organizations", .list [.dict [("id", .int 1),
        ("pipes", .list [.dict [("name", .str "Other")]])]])])
  ∧ PipeService.search_pipes wrDemo
        [("organizations", .list [.dict [("id", .int 1),
          ("pipes", .list [.dict [("name", .str "Other")]])]])] (some "Custaudio") 70 =
      some (.dict [("organizations", .list [])]) := by
  constructor
  · have h := ((search_pipes_shaping wrDemo 70).1
      [("organizations", .list [.dict [("id", .int 1),
        ("pipes", .list [.dict [("name", .str "Other")]])]])]).1
    simpa [dictGetD, dictFind] using h
  · have hfil : ([[("name", Py.str "Other")]] : List (List (String × Py))).filter
        (fun p => decide ((70 : ℚ) ≤ wrDemo "Custaudio" (pipeDisplayName p))) = [] := by
      simp [pipeDisplayName, dictGetD, dictFind, pyStr, wrDemo]
      norm_num
    have hfo := ((search_pipes_shaping wrDemo 70).2.1 (by norm_num) "Custaudio"
        [("id", .int 1), ("pipes", .list [.dict [("name", .str "Other")]])]
        [[("name", .str "Other")]] rfl
        (by intro p hp; simp at hp; subst hp; exact ⟨"Other", rfl⟩)).1 hfil
    have h3 := (search_pipes_shaping wrDemo 70).2.2 "Custaudio" (by decide)
        [.dict [("id", .int 1), ("pipes", .list [.dict [("name", .str "Other")]])]]
        (by intro org ho; simp at ho; subst ho; rw [hfo]; simp)
    rw [h3]
    simp [hfo]

lemma setPc_same (pc : Bool → TaskPc) (t : Bool) (v : TaskPc) : setPc pc t v t = v := by
  simp [setPc]

lemma setPc_other (pc : Bool → TaskPc) (t : Bool) (v : TaskPc) (u : Bool) (h : u ≠ t) :
    setPc pc t v u = pc u := by
  simp [setPc, h]

lemma sessionOpen_holdsLock (p : TaskPc) : sessionOpen p = true → holdsLock p = true := by
  cases p <;> simp [sessionOpen, holdsLock]

lemma adapterInv_init : AdapterInv initState := by
  refine ⟨rfl, ?_, ?_, ?_, rfl⟩
  · intro t
    simp [initState]
  · intro t h
    simp [initState, holdsLock] at h
  · intro t h
    simp [initState] at h

lemma otherNotOpen {s : AdapterState} (inv : AdapterInv s) (t : Bool)
    (ht : holdsLock (s.pc t) = true) :
    ∀ u, u ≠ t → sessionOpen (s.pc u) = false := by
  intro u hu
  cases hso : sessionOpen (s.pc u) with
  | false => rfl
  | true =>
      have h1 := inv.lockOwner u (sessionOpen_holdsLock _ hso)
      have h2 := inv.lockOwner t ht
      rw [h1] at h2
      exact absurd (Option.some.inj h2) hu

lemma sessionCount_zero_of_holder {s : AdapterState} (inv : AdapterInv s) (t : Bool)
    (ht : s.pc t = .hasLock) : sessionCount s = 0 := by
  have hto : sessionOpen (s.pc t) = false := by rw [ht]; rfl
  have hother := otherNotOpen inv t (by rw [ht]; rfl)
  cases t with
  | false =>
      have := hother true (by simp)
      simp [sessionCount, hto, this]
  | true =>
      have := hother false (by simp)
      simp [sessionCount, hto, this]

lemma adapterInv_step {s s' : AdapterState} (inv : AdapterInv s)
    (h : AdapterStep s s') : AdapterInv s' := by
  cases h with
  | acquire t ht hlock =>
      refine ⟨inv.noConflict, ?_, ?_, ?_, ?_⟩
      · intro u
        by_cases hu : u = t
        · subst hu; simp [setPc]
        · simp only [setPc_other _ _ _ _ hu]; exact inv.noCrash u
      · intro u hu
        by_cases hut : u = t
        · subst hut; rfl
        · simp only [setPc_other _ _ _ _ hut] at hu
          have := inv.lockOwner u hu
          rw [hlock] at this
          exact absurd this (by simp)
      · intro u hu
        simp only [Option.some.injEq] at hu
        subst hu
        simp [setPc, holdsLock]
      · show s.sessions = sessionCount _
        rw [inv.count]
        cases t <;> simp [sessionCount, setPc, ht, sessionOpen]
  | openOk t ht hs =>
      refine ⟨inv.noConflict, ?_, ?_, ?_, ?_⟩
      · intro u
        by_cases hu : u = t
        · subst hu; simp [setPc]
        · simp only [setPc_other _ _ _ _ hu]; exact inv.noCrash u
      · intro u hu
        by_cases hut : u = t
        · subst hut
          exact inv.lockOwner _ (by rw [ht]; rfl)
        · simp only [setPc_other _ _ _ _ hut] at hu
          exact inv.lockOwner u hu
      · intro u hu
        have := inv.ownerHolds u hu
        by_cases hut : u = t
        · subst hut; simp [setPc, holdsLock]
        · simp only [setPc_other _ _ _ _ hut]; exact this
      · show s.sessions + 1 = sessionCount _
        have hother := otherNotOpen inv t (by rw [ht]; rfl)
        cases t with
        | false =>
            have hoth := hother true (by simp)
            dsimp only [sessionCount]
            rw [setPc_same, setPc_other _ _ _ _ (by simp : (true : Bool) ≠ false), hoth]
            simp [hs, sessionOpen]
        | true =>
            have hoth := hother false (by simp)
            dsimp only [sessionCount]
            rw [setPc_other _ _ _ _ (by simp : (false : Bool) ≠ true), setPc_same, hoth]
            simp [hs, sessionOpen]
  | openConflict t ht hs =>
      exact absurd (inv.count.trans (sessionCount_zero_of_holder inv t ht)) hs
  | exec t ht =>
      refine ⟨inv.noConflict, ?_, ?_, ?_, ?_⟩
      · intro u
        by_cases hu : u = t
        · subst hu; simp [setPc]
        · simp only [setPc_other _ _ _ _ hu]; exact inv.noCrash u
      · intro u hu
        by_cases hut : u = t
        · subst hut
          exact inv.lockOwner _ (by rw [ht]; rfl)
        · simp only [setPc_other _ _ _ _ hut] at hu
          exact inv.lockOwner u hu
      · intro u hu
        have := inv.ownerHolds u hu
        by_cases hut : u = t
        · subst hut; simp [setPc, holdsLock]
        · simp only [setPc_other _ _ _ _ hut]; exact this
      · show s.sessions = sessionCount _
        rw [inv.count]
        cases t <;> simp [sessionCount, setPc, ht, sessionOpen]
  | close t ht =>
      refine ⟨inv.noConflict, ?_, ?_, ?_, ?_⟩
      · intro u
        by_cases hu : u = t
        · subst hu; simp [setPc]
        · simp only [setPc_other _ _ _ _ hu]; exact inv.noCrash u
      · intro u hu
        by_cases hut : u = t
        · subst hut
          exact inv.lockOwner _ (by rw [ht]; rfl)
        · simp only [setPc_other _ _ _ _ hut] at hu
          exact inv.lockOwner u hu
      · intro u hu
        have := inv.ownerHolds u hu
        by_cases hut : u = t
        · subst hut; simp [setPc, holdsLock]
        · simp only [setPc_other _ _ _ _ hut]; exact this
      · show s.sessions - 1 = sessionCount _
        rw [inv.count]
        have hto : sessionOpen (s.pc t) = true := by rw [ht]; rfl
        have hother := otherNotOpen inv t (by rw [ht]; rfl)
        cases t with
        | false =>
            have hoth := hother true (by simp)
            dsimp only [sessionCount]
            rw [setPc_same, setPc_other _ _ _ _ (by simp : (true : Bool) ≠ false), hto, hoth]
            simp [sessionOpen]
        | true =>
            have hoth := hother false (by simp)
            dsimp only [sessionCount]
            rw [setPc_other _ _ _ _ (by simp : (false : Bool) ≠ true), setPc_same, hto, hoth]
            simp [sessionOpen]
  | release t ht =>
      refine ⟨inv.noConflict, ?_, ?_, ?_, ?_⟩
      · intro u
        by_cases hu : u = t
        · subst hu; simp [setPc]
        · simp only [setPc_other _ _ _ _ hu]; exact inv.noCrash u
      · intro u hu
        by_cases hut : u = t
        · subst hut
          simp only [setPc_same] at hu
          simp [holdsLock] at hu
        · simp only [setPc_other _ _ _ _ hut] at hu
          have h1 := inv.lockOwner u hu
          have h2 := inv.lockOwner t (by rw [ht]; rfl)
          rw [h1] at h2
          exact absurd (Option.some.inj h2) hut
      · intro u hu
        simp at hu
      · show s.sessions = sessionCount _
        rw [inv.count]
        cases t <;> simp [sessionCount, setPc, ht, sessionOpen]

lemma adapterInv_reachable {s : AdapterState} (h : AdapterReachable s) : AdapterInv s := by
  induction h with
  | refl => exact adapterInv_init
  | tail _ hstep ih => exact adapterInv_step ih hstep

lemma sessions_le_one {s : AdapterState} (inv : AdapterInv s) : s.sessions ≤ 1 := by
  rw [inv.count]
  cases hf : sessionOpen (s.pc false) with
  | false => cases ht : sessionOpen (s.pc true) <;> simp [sessionCount, hf, ht]
  | true =>
      cases ht : sessionOpen (s.pc true) with
      | false => simp [sessionCount, hf, ht]
      | true =>
          have h1 := inv.lockOwner false (sessionOpen_holdsLock _ hf)
          have h2 := inv.lockOwner true (sessionOpen_holdsLock _ ht)
          rw [h1] at h2
          exact absurd (Option.some.inj h2) (by simp)

lemma task_step_of_holder {s : AdapterState} (u : Bool)
    (hu : holdsLock (s.pc u) = true) : ∃ s', AdapterStep s s' := by
  cases hpc : s.pc u with
  | hasLock =>
      by_cases hsess : s.sessions = 0
      · exact ⟨_, AdapterStep.openOk s u hpc hsess⟩
      · exact ⟨_, AdapterStep.openConflict s u hpc hsess⟩
  | inSession => exact ⟨_, AdapterStep.exec s u hpc⟩
  | executed => exact ⟨_, AdapterStep.close s u hpc⟩
  | closed => exact ⟨_, AdapterStep.release s u hpc⟩
  | idle => rw [hpc] at hu; simp [holdsLock] at hu
  | done => rw [hpc] at hu; simp [holdsLock] at hu
  | crashed => rw [hpc] at hu; simp [holdsLock] at hu

lemma adapter_no_deadlock {s : AdapterState} (inv : AdapterInv s)
    (hterm : ∀ s', ¬ AdapterStep s s') :
    s.pc false = .done ∧ s.pc true = .done := by
  have hall : ∀ t, s.pc t = .done := by
    intro t
    cases hpc : s.pc t with
    | done => rfl
    | idle =>
        exfalso
        cases hlock : s.lock with
        | none => exact hterm _ (AdapterStep.acquire s t hpc hlock)
        | some u =>
            obtain ⟨s', hs'⟩ := task_step_of_holder u (inv.ownerHolds u hlock)
            exact hterm s' hs'
    | hasLock =>
        exfalso
        obtain ⟨s', hs'⟩ := task_step_of_holder t (by rw [hpc]; rfl)
        exact hterm s' hs'
    | inSession =>
        exfalso
        exact hterm _ (AdapterStep.exec s t hpc)
    | executed =>
        exfalso
        exact hterm _ (AdapterStep.close s t hpc)
    | closed =>
        exfalso
        exact hterm _ (AdapterStep.release s t hpc)
    | crashed => exact absurd hpc (inv.noCrash t)
  exact ⟨hall false, hall true⟩

/-- Remaining-step count of one `execute_query` invocation, used to show
every interleaving terminates. -/
def pcMeasure : TaskPc → Nat
  | .idle => 5
  | .hasLock => 4
  | .inSession => 3
  | .executed => 2
  | .closed => 1
  | .done => 0
  | .crashed => 0

/-- Total remaining work of the two concurrent calls. -/
def adapterMeasure (s : AdapterState) : Nat :=
  pcMeasure (s.pc false) + pcMeasure (s.pc true)

lemma adapterStep_measure {s s' : AdapterState} (h : AdapterStep s s') :
    adapterMeasure s' < adapterMeasure s := by
  cases h with
  | acquire t ht hlock =>
      cases t <;> simp [adapterMeasure, setPc, ht, pcMeasure]
  | openOk t ht hs =>
      cases t <;> simp [adapterMeasure, setPc, ht, pcMeasure]
  | openConflict t ht hs =>
      cases t <;> simp [adapterMeasure, setPc, ht, pcMeasure]
  | exec t ht =>
      cases t <;> simp [adapterMeasure, setPc, ht, pcMeasure]
  | close t ht =>
      cases t <;> simp [adapterMeasure, setPc, ht, pcMeasure]
  | release t ht =>
      cases t <;> simp [adapterMeasure, setPc, ht, pcMeasure]

/-- C6: all `execute_query` calls on a shared adapter instance are
serialized by the instance's lock — in every state reachable by
interleaving two concurrent calls no transport conflict has been raised and
at most one session is open; every interleaving terminates (each step
strictly decreases the remaining work), and an interleaving can only stop
when both calls have completed successfully. -/
theorem execute_query_serialized :
    (∀ s, AdapterReachable s →
        s.conflict = false ∧ s.sessions ≤ 1 ∧
        ((∀ s', ¬ AdapterStep s s') → s.pc false = .done ∧ s.pc true = .done))
  ∧ (∀ s s', AdapterStep s s' → adapterMeasure s' < adapterMeasure s) := by
  constructor
  · intro s hs
    have inv := adapterInv_reachable hs
    exact ⟨inv.noConflict, sessions_le_one inv, fun hterm => adapter_no_deadlock inv hterm⟩
  · intro s s' h
    exact adapterStep_measure h

/-- Witness for C6: the initial two-pending-calls state is reachable and
satisfies the serialization guarantees, and the concrete first step (task
`false` acquires the lock) strictly decreases the remaining work. -/
theorem execute_query_serialized_witness :
    (initState.conflict = false ∧ initState.sessions ≤ 1)
  ∧ adapterMeasure
      { pc := setPc initState.pc false .hasLock, lock := some false,
        sessions := initState.sessions, conflict := initState.conflict } <
      adapterMeasure initState := by
  constructor
  · exact ⟨(execute_query_serialized.1 initState Relation.ReflTransGen.refl).1,
           (execute_query_serialized.1 initState Relation.ReflTransGen.refl).2.1⟩
  · exact execute_query_serialized.2 initState _
      (AdapterStep.acquire initState false rfl rfl)

/-- C7: when elicitation is available and the confirmation round-trip does
not produce an explicit accept with `confirm=true` — decline / non-accept
action, `confirm=false`, or an exception during elicitation — `delete_card`
returns a cancellation or error payload and never issues the delete
mutation: the only network call is the preview fetch. -/
theorem delete_card_confirmation_gate (card_id : Int) (debug : Bool)
    (card_title pipe_name : String) (elicit : ElicitOutcome) (del : DeleteOutcome)
    (hpos : 0 < card_id)
    (hne : elicit ≠ ElicitOutcome.result "accept" true) :
    (delete_card_tool card_id debug true (.ok card_title pipe_name) elicit del).2 =
      [NetCall.getCard card_id]
  ∧ NetCall.deleteCard card_id ∉ (delete_card_tool card_id debug true (.ok card_title pipe_name) elicit del).2
  ∧ ((delete_card_tool card_id debug true (.ok card_title pipe_name) elicit del).1 =
        build_delete_card_error_payload "Card deletion cancelled by user."
     ∨ ∃ msg, elicit = .raised msg ∧
        (delete_card_tool card_id debug true (.ok card_title pipe_name) elicit del).1 =
          build_delete_card_error_payload ("Failed to request confirmation: " ++ msg)) := by
  have hnonneg : ¬ card_id ≤ 0 := by omega
  have hrun : ∃ payload,
      delete_card_tool card_id debug true (.ok card_title pipe_name) elicit del =
        (payload, [NetCall.getCard card_id]) ∧
      (payload = build_delete_card_error_payload "Card deletion cancelled by user."
       ∨ ∃ msg, elicit = .raised msg ∧
          payload = build_delete_card_error_payload ("Failed to request confirmation: " ++ msg)) := by
    cases elicit with
    | raised msg =>
        refine ⟨_, ?_, Or.inr ⟨msg, rfl, rfl⟩⟩
        simp [delete_card_tool, hnonneg]
    | result action confirm =>
        by_cases haction : action = "accept"
        · subst haction
          cases confirm with
          | true => exact absurd rfl hne
          | false =>
              refine ⟨_, ?_, Or.inl rfl⟩
              simp [delete_card_tool, hnonneg]
        · refine ⟨_, ?_, Or.inl rfl⟩
          simp [delete_card_tool, hnonneg, haction]
  obtain ⟨payload, hrun, hpay⟩ := hrun
  rw [hrun]
  refine ⟨rfl, by simp, ?_⟩
  simpa using hpay

/-- Witness for C7: a concrete declined confirmation returns the
cancellation payload and issues only the preview fetch. -/
theorem delete_card_confirmation_gate_witness :
    (delete_card_tool 5 false true (.ok "T" "P") (.result "decline" false)
        (.resp [("deleteCard", .dict [("success", .bool true)])])).2 = [NetCall.getCard 5]
  ∧ NetCall.deleteCard 5 ∉ (delete_card_tool 5 false true (.ok "T" "P") (.result "decline" false)
        (.resp [("deleteCard", .dict [("success", .bool true)])])).2 := by
  have h := delete_card_confirmation_gate 5 false "T" "P" (.result "decline" false)
    (.resp [("deleteCard", .dict [("success", .bool true)])]) (by omega) (by simp)
  exact ⟨h.1, h.2.1⟩

/-- C8: `delete_card` with a non-positive `card_id` returns exactly the
fixed invalid-id error payload and performs no network call at all. -/
theorem delete_card_rejects_nonpositive (card_id : Int) (debug canElicit : Bool)
    (fetch : FetchOutcome) (elicit : ElicitOutcome) (del : DeleteOutcome)
    (h : card_id ≤ 0) :
    delete_card_tool card_id debug canElicit fetch elicit del =
      (.dict [("success", .bool false),
              ("error", .str "Invalid \x27card_id\x27. Please provide a positive integer.")], []) := by
  simp [delete_card_tool, h, build_delete_card_error_payload]

/-- Witness for C8: `card_id = 0` concretely yields the fixed payload with
an empty call trace. -/
theorem delete_card_rejects_nonpositive_witness :
    delete_card_tool 0 false true (.ok "T" "P") (.result "accept" true)
        (.resp [("deleteCard", .dict [("success", .bool true)])]) =
      (.dict [("success", .bool false),
              ("error", .str "Invalid \x27card_id\x27. Please provide a positive integer.")], []) :=
  delete_card_rejects_nonpositive 0 false true (.ok "T" "P") (.result "accept" true)
    (.resp [("deleteCard", .dict [("success", .bool true)])]) (by omega)

/-- Counterexample for C9: on a successful response with card id "789" the
`card_link` value is the markdown link `[url](url)`, not the bare derived
URL `https://app.pipefy.com/open-cards/789` the claim states. -/
theorem create_card_link_counterexample :
    create_card_link_post [("createCard", .dict [("card", .dict [("id", .str "789")])])] =
      some [("createCard", .dict [("card", .dict [("id", .str "789")])]),
            ("card_link", .str "[https://app.pipefy.com/open-cards/789](https://app.pipefy.com/open-cards/789)")]
  ∧ ("[https://app.pipefy.com/open-cards/789](https://app.pipefy.com/open-cards/789)" : String) ≠
      "https://app.pipefy.com/open-cards/789" := by
  constructor
  · rfl
  · decide

/-- C9 (amended): on a successful `create_card` response containing a truthy
card id, the tool extends the raw response with a `card_link` entry whose
value is a markdown link `[url](url)` wrapping the derived URL
`https://app.pipefy.com/open-cards/<id>`; with no truthy id the response is
returned unchanged. -/
theorem create_card_link_amended (result kvs1 kvs2 : List (String × Py))
    (h1 : dictGetD result "createCard" (.dict []) = .dict kvs1)
    (h2 : dictGetD kvs1 "card" (.dict []) = .dict kvs2) :
    ((dictGetD kvs2 "id" .pyNone).truthy = true →
        create_card_link_post result =
          some (dictSet result "card_link"
            (.str ("[https://app.pipefy.com/open-cards/" ++ pyStr (dictGetD kvs2 "id" .pyNone)
                   ++ "](https://app.pipefy.com/open-cards/"
                   ++ pyStr (dictGetD kvs2 "id" .pyNone) ++ ")"))))
  ∧ ((dictGetD kvs2 "id" .pyNone).truthy = false →
        create_card_link_post result = some result) := by
  constructor
  · intro htr
    simp only [create_card_link_post, h1, h2, htr, if_pos]
    have hl1 : ("[" : String) ++ "https://app.pipefy.com/open-cards/" =
        "[https://app.pipefy.com/open-cards/" := rfl
    have hl2 : ("](" : String) ++ "https://app.pipefy.com/open-cards/" =
        "](https://app.pipefy.com/open-cards/" := rfl
    simp only [← String.append_assoc, hl1]
    rw [String.append_assoc _ "](" "https://app.pipefy.com/open-cards/", hl2]
  · intro htr
    simp [create_card_link_post, h1, h2, htr]

/-- Witness for C9 (amended): the concrete response with id "789" gains the
markdown `card_link`, and a response with a falsy id is returned
unchanged. -/
theorem create_card_link_amended_witness :
    create_card_link_post [("createCard", .dict [("card", .dict [("id", .str "789")])])] =
      some [("createCard", .dict [("card", .dict [("id", .str "789")])]),
            ("card_link", .str "[https://app.pipefy.com/open-cards/789](https://app.pipefy.com/open-cards/789)")]
  ∧ create_card_link_post [("createCard", .dict [("card", .dict [("id", .str "")])])] =
      some [("createCard", .dict [("card", .dict [("id", .str "")])])] := by
  constructor
  · have h := (create_card_link_amended
        [("createCard", .dict [("card", .dict [("id", .str "789")])])]
        [("card", .dict [("id", .str "789")])] [("id", .str "789")] rfl rfl).1 rfl
    simpa [dictSet, dictHasKey, dictFind, dictGetD, pyStr] using h
  · exact (create_card_link_amended
        [("createCard", .dict [("card", .dict [("id", .str "")])])]
        [("card", .dict [("id", .str "")])] [("id", .str "")] rfl rfl).2 rfl

/-- C10: the comment-tool error classifier scans the lower-cased
concatenation of the exception's message and nested error messages with a
fixed precedence — not-found markers first, then permission, then
invalid-input, then the generic fallback — so text matching several
categories always yields the earliest category's fixed message. -/
theorem comment_error_classifier_precedence (raw : String) (errorsAttr : Option Py) :
    (anyMarker NOT_FOUND_MARKERS (classifierHaystack (extract_error_strings raw errorsAttr)) = true →
        map_add_card_comment_error_to_message raw errorsAttr =
          "Card not found. Please verify \x27card_id\x27 and access permissions.")
  ∧ (anyMarker NOT_FOUND_MARKERS (classifierHaystack (extract_error_strings raw errorsAttr)) = false →
      anyMarker PERMISSION_MARKERS (classifierHaystack (extract_error_strings raw errorsAttr)) = true →
        map_add_card_comment_error_to_message raw errorsAttr =
          "You don\x27t have permission to comment on this card.")
  ∧ (anyMarker NOT_FOUND_MARKERS (classifierHaystack (extract_error_strings raw errorsAttr)) = false →
      anyMarker PERMISSION_MARKERS (classifierHaystack (extract_error_strings raw errorsAttr)) = false →
      anyMarker INVALID_INPUT_MARKERS (classifierHaystack (extract_error_strings raw errorsAttr)) = true →
        map_add_card_comment_error_to_message raw errorsAttr =
          "Invalid input. Please provide a valid \x27card_id\x27 and non-empty \x27text\x27.")
  ∧ (anyMarker NOT_FOUND_MARKERS (classifierHaystack (extract_error_strings raw errorsAttr)) = false →
      anyMarker PERMISSION_MARKERS (classifierHaystack (extract_error_strings raw errorsAttr)) = false →
      anyMarker INVALID_INPUT_MARKERS (classifierHaystack (extract_error_strings raw errorsAttr)) = false →
        map_add_card_comment_error_to_message raw errorsAttr =
          "Unexpected error while adding comment. Please try again.")
  ∧ (anyMarker NOT_FOUND_MARKERS (classifierHaystack (extract_error_strings raw errorsAttr)) = true →
      anyMarker PERMISSION_MARKERS (classifierHaystack (extract_error_strings raw errorsAttr)) = true →
        map_add_card_comment_error_to_message raw errorsAttr =
          "Card not found. Please verify \x27card_id\x27 and access permissions.") := by
  refine ⟨?_, ?_, ?_, ?_, ?_⟩
  · intro h1
    simp [map_add_card_comment_error_to_message, map_comment_like_error, h1]
  · intro h1 h2
    simp [map_add_card_comment_error_to_message, map_comment_like_error, h1, h2]
  · intro h1 h2 h3
    simp [map_add_card_comment_error_to_message, map_comment_like_error, h1, h2, h3]
  · intro h1 h2 h3
    simp [map_add_card_comment_error_to_message, map_comment_like_error, h1, h2, h3]
  · intro h1 h2
    simp [map_add_card_comment_error_to_message, map_comment_like_error, h1]

/-- Witness for C10: a concrete exception whose text matches both the
not-found and the permission categories is classified with the earlier
(not-found) fixed message. -/
theorem comment_error_classifier_precedence_witness :
    anyMarker NOT_FOUND_MARKERS
        (classifierHaystack (extract_error_strings "Card Not Found: permission denied" none)) = true
  ∧ anyMarker PERMISSION_MARKERS
        (classifierHaystack (extract_error_strings "Card Not Found: permission denied" none)) = true
  ∧ map_add_card_comment_error_to_message "Card Not Found: permission denied" none =
      "Card not found. Please verify \x27card_id\x27 and access permissions." := by
  refine ⟨by decide, by decide, ?_⟩
  exact (comment_error_classifier_precedence "Card Not Found: permission denied" none).2.2.2.2
    (by decide) (by decide)
